import Mathlib

/-!
# Verification of the full-page screenshot capture-and-stitch pipeline

Shallow embedding of `src/extension/FullPageScreenshot/background.js`.

* The capture loop of `captureFullPageSimple` (lines 69-103) is embedded as a
  fuelled recursion `captureLoop` over the scroll `position`; the JS `while`
  has no iteration bound, so `none` models "the given fuel ran out with the
  loop still running" and `∀ fuel, captureLoop fuel … = none` models
  non-termination.
* The in-loop scroll requests (lines 87-99) are collected by `scrollRequests`.
* `stitchSimple` (lines 142-189) is embedded by `stitchOps`, which returns the
  list of canvas draw operations (source rectangle and destination rectangle)
  the function performs, over exact rational coordinates; `stitchImage` adds
  the canvas dimensions and the white background fill.
* The control flow of the whole session (probe, scroll to top, loop, restore,
  stitch, download, with promise rejections propagating through the `catch`
  that rethrows) is embedded by `runSession` over an oracle `Env` stating
  which external primitives succeed; it returns the trace of attempted
  actions and the overall success.
* The message listener (lines 1-8) is embedded by `handleMessage`.
* The page prober script (lines 15-46) is embedded by `probe` over an explicit
  page state, including its write to the global `window.__scrollTarget`.

Device pixel ratios are exact rationals.  The JS constant `0.7` in
`Math.floor(viewportHeight * 0.7)` is modelled as the exact rational 7/10
(so `stepSizeOf v = 7 * v / 10` in natural floor division); binary
floating-point rounding of `0.7` is not modelled.
-/

/-- `Math.floor(viewportHeight * 0.7)` (background.js line 69), with the
literal `0.7` as the exact rational `7/10`: natural floor division. -/
def stepSizeOf (v : ℕ) : ℕ := 7 * v / 10

/-- The capture loop of `captureFullPageSimple` (background.js lines 71-103):
`position` starts at 0 and, while `position < scrollHeight`, the visible tab is
captured and recorded at `position`, then `position` advances by `stepSize`.
Returns the list of recorded capture positions.  The JS `while` loop has no
iteration bound, so the embedding is fuelled: `none` means the fuel was
exhausted while the loop condition still held. -/
def captureLoop : ℕ → ℕ → ℕ → ℕ → Option (List ℕ)
  | 0, _, scrollHeight, position =>
      if position < scrollHeight then none else some []
  | fuel + 1, stepSize, scrollHeight, position =>
      if position < scrollHeight then
        (captureLoop fuel stepSize scrollHeight (position + stepSize)).map (position :: ·)
      else some []

/-- The loop never finishes, whatever fuel it is given: the embedding of an
infinite `while` loop. -/
def loopDiverges (stepSize scrollHeight : ℕ) : Prop :=
  ∀ fuel, captureLoop fuel stepSize scrollHeight 0 = none

/-- The scroll offsets passed to the in-loop Scroll Driver injections
(background.js lines 84-102): after each capture, `position += stepSize`, and
only `if (position < scrollHeight)` is a scroll to the new `position`
requested. -/
def scrollRequests : ℕ → ℕ → ℕ → ℕ → Option (List ℕ)
  | 0, _, scrollHeight, position =>
      if position < scrollHeight then none else some []
  | fuel + 1, stepSize, scrollHeight, position =>
      if position < scrollHeight then
        (scrollRequests fuel stepSize scrollHeight (position + stepSize)).map
          (fun rest =>
            if position + stepSize < scrollHeight then (position + stepSize) :: rest else rest)
      else some []

/-- Closed form of the capture positions recorded from `position = p` on:
`ceil((H - p) / s)` many, at `p, p + s, p + 2s, …`. -/
def posFrom (s H p : ℕ) : List ℕ :=
  (List.range ((H - p + s - 1) / s)).map (fun i => p + i * s)

lemma captureLoop_zero_step (H p : ℕ) (h : p < H) :
    ∀ fuel, captureLoop fuel 0 H p = none := by
  intro fuel
  induction fuel with
  | zero => simp [captureLoop, h]
  | succ n ih => simp [captureLoop, h, ih]

lemma captureLoop_done (fuel s H p : ℕ) (h : ¬ p < H) :
    captureLoop fuel s H p = some [] := by
  cases fuel <;> simp [captureLoop, h]

lemma posFrom_nil (s H p : ℕ) (hs : 1 ≤ s) (h : ¬ p < H) : posFrom s H p = [] := by
  unfold posFrom
  have h1 : H - p + s - 1 = s - 1 := by omega
  rw [h1, Nat.div_eq_of_lt (by omega)]
  simp

lemma ceil_count_succ (s H p : ℕ) (hs : 1 ≤ s) (h : p < H) :
    (H - p + s - 1) / s = (H - (p + s) + s - 1) / s + 1 := by
  have hm1 : 1 ≤ H - p := by omega
  have hsub : H - (p + s) = H - p - s := by omega
  rw [hsub]
  rcases le_or_lt (H - p) s with hle | hlt
  · have h1 : H - p - s = 0 := by omega
    rw [h1]
    have h2 : (0 + s - 1) / s = 0 := Nat.div_eq_of_lt (by omega)
    have h3 : (H - p + s - 1) / s = 1 := by
      have hge : 1 ≤ (H - p + s - 1) / s := (Nat.le_div_iff_mul_le (by omega)).mpr (by omega)
      have hlt2 : (H - p + s - 1) / s < 2 := (Nat.div_lt_iff_lt_mul (by omega)).mpr (by omega)
      omega
    omega
  · have h4 : H - p + s - 1 = (H - p - s + s - 1) + s := by omega
    rw [h4, Nat.add_div_right _ (by omega)]

lemma posFrom_cons (s H p : ℕ) (hs : 1 ≤ s) (h : p < H) :
    posFrom s H p = p :: posFrom s H (p + s) := by
  unfold posFrom
  rw [ceil_count_succ s H p hs h, List.range_succ_eq_map, List.map_cons, List.map_map]
  congr 1
  · simp
  · apply List.map_congr_left
    intro i _
    simp only [Function.comp_apply, Nat.succ_mul]
    omega

/-- Whenever the fuelled loop finishes, the positions it recorded are the
closed-form arithmetic progression. -/
lemma captureLoop_some (s : ℕ) (hs : 1 ≤ s) (fuel : ℕ) :
    ∀ H p ps, captureLoop fuel s H p = some ps → ps = posFrom s H p := by
  induction fuel with
  | zero =>
      intro H p ps h
      by_cases hp : p < H
      · simp [captureLoop, hp] at h
      · simp [captureLoop, hp] at h
        exact h.trans (posFrom_nil s H p hs hp).symm
  | succ fuel ih =>
      intro H p ps h
      by_cases hp : p < H
      · simp only [captureLoop, if_pos hp, Option.map_eq_some'] at h
        obtain ⟨ps', h1, h2⟩ := h
        rw [← h2, posFrom_cons s H p hs hp, ih H (p + s) ps' h1]
      · simp [captureLoop, hp] at h
        exact h.trans (posFrom_nil s H p hs hp).symm

/-- With enough fuel the loop finishes (each iteration advances by `s ≥ 1`). -/
lemma captureLoop_total (s : ℕ) (hs : 1 ≤ s) (fuel : ℕ) :
    ∀ H p, H ≤ p + fuel * s → captureLoop fuel s H p = some (posFrom s H p) := by
  induction fuel with
  | zero =>
      intro H p h
      have hp : ¬ p < H := by omega
      rw [captureLoop_done 0 s H p hp, posFrom_nil s H p hs hp]
  | succ fuel ih =>
      intro H p h
      by_cases hp : p < H
      · have hbound : H ≤ (p + s) + fuel * s := by
          have hmul : (fuel + 1) * s = fuel * s + s := by ring
          omega
        simp only [captureLoop, if_pos hp, ih H (p + s) hbound, Option.map_some']
        rw [posFrom_cons s H p hs hp]
      · rw [captureLoop_done (fuel + 1) s H p hp, posFrom_nil s H p hs hp]

lemma posFrom_zero_length (s H : ℕ) : (posFrom s H 0).length = (H + s - 1) / s := by
  simp [posFrom]

/-- One `ctx.drawImage` call of `stitchSimple`: the source rectangle
`[srcY, srcY + srcH)` of the step's bitmap is drawn onto the canvas rows
`[destY, destY + destH)`.  Coordinates are exact rationals (CSS pixels times
the device pixel ratio). -/
structure DrawOp where
  srcY : ℚ
  srcH : ℚ
  destY : ℚ
  destH : ℚ
deriving DecidableEq

/-- The drawing loop of `stitchSimple` (background.js lines 153-180) over the
list of `(position, img.height)` pairs, carrying the loop index `i`: the first
image (`i = 0`) is drawn whole at `y = position * dpr`; every later image is
drawn from `sourceY = overlapPx` with `sourceHeight = img.height - overlapPx`
at `destY = y + overlapPx`, where `overlapPx = (viewportHeight - stepSize) *
dpr`, and the draw is skipped unless `sourceHeight > 0 && destY <
canvasHeight`. -/
def stitchOpsAux (viewportHeight : ℕ) (d : ℚ) (stepSize : ℕ) (canvasHeight : ℚ) :
    ℕ → List (ℕ × ℚ) → List DrawOp
  | _, [] => []
  | i, (position, imgHeight) :: rest =>
      let y : ℚ := (position : ℚ) * d
      if i = 0 then
        ⟨0, imgHeight, y, imgHeight⟩ :: stitchOpsAux viewportHeight d stepSize canvasHeight (i + 1) rest
      else
        let overlapPx : ℚ := ((viewportHeight : ℚ) - (stepSize : ℚ)) * d
        let sourceHeight : ℚ := imgHeight - overlapPx
        let destY : ℚ := y + overlapPx
        if sourceHeight > 0 ∧ destY < canvasHeight then
          ⟨overlapPx, sourceHeight, destY, sourceHeight⟩ ::
            stitchOpsAux viewportHeight d stepSize canvasHeight (i + 1) rest
        else
          stitchOpsAux viewportHeight d stepSize canvasHeight (i + 1) rest

/-- The draw operations `stitchSimple` performs, given the screenshots as
`(position, img.height)` pairs and the geometry (background.js lines 142-180,
with `canvasHeight = totalHeight * dpr`). -/
def stitchOps (shots : List (ℕ × ℚ)) (totalHeight viewportHeight : ℕ) (d : ℚ)
    (stepSize : ℕ) : List DrawOp :=
  stitchOpsAux viewportHeight d stepSize ((totalHeight : ℚ) * d) 0 shots

/-- A draw operation writes canvas row `y`. -/
def opWrites (op : DrawOp) (y : ℚ) : Prop :=
  op.destY ≤ y ∧ y < op.destY + op.destH

instance (op : DrawOp) (y : ℚ) : Decidable (opWrites op y) :=
  inferInstanceAs (Decidable (op.destY ≤ y ∧ y < op.destY + op.destH))

/-- The stitched output: canvas dimensions (`viewportWidth * dpr` by
`totalHeight * dpr`), the background fill (`ctx.fillStyle = 'white'` over the
whole canvas, background.js lines 149-150) and the draw operations performed
on top of it. -/
structure Stitched where
  width : ℚ
  height : ℚ
  background : String
  ops : List DrawOp
deriving DecidableEq

/-- `stitchSimple`'s canvas as composed (background.js lines 142-180). -/
def stitchImage (shots : List (ℕ × ℚ)) (totalHeight viewportHeight viewportWidth : ℕ)
    (d : ℚ) (stepSize : ℕ) : Stitched :=
  ⟨(viewportWidth : ℚ) * d, (totalHeight : ℚ) * d, "white",
    stitchOps shots totalHeight viewportHeight d stepSize⟩

/-- C2 counterexample: with `viewportHeight = 1` the step size
`floor(1 * 0.7)` is `0`, and for `scrollHeight = 1` the capture loop never
terminates — it does not collect `ceil(scrollHeight / stepSize)` screenshots
(there is no iteration ceiling in the code). -/
theorem C2_counterexample : stepSizeOf 1 = 0 ∧ loopDiverges (stepSizeOf 1) 1 :=
  ⟨rfl, fun fuel => captureLoop_zero_step 1 0 (by norm_num) fuel⟩

/-- C2 (amended): whenever `stepSize = floor(viewportHeight * 0.7) ≥ 1`
(that is, `viewportHeight ≥ 2`), the capture loop terminates on its own —
there is no iteration ceiling in the code — and collects exactly
`ceil(scrollHeight / stepSize)` screenshots. -/
theorem C2_step_count (v H : ℕ) (hs : 1 ≤ stepSizeOf v) :
    ∃ ps, captureLoop (H + 1) (stepSizeOf v) H 0 = some ps ∧
      ps.length = (H + stepSizeOf v - 1) / stepSizeOf v := by
  refine ⟨posFrom (stepSizeOf v) H 0, ?_, posFrom_zero_length _ _⟩
  apply captureLoop_total (stepSizeOf v) hs (H + 1) H 0
  have h1 : (H + 1) * 1 ≤ (H + 1) * stepSizeOf v := Nat.mul_le_mul_left (H + 1) hs
  omega

/-- C2 witness: the spec's own scenario `totalExtent = 3000`,
`viewportExtent = 1000` gives `stepSize = 700` and exactly 5 captures. -/
theorem C2_witness :
    (∃ ps, captureLoop (3000 + 1) (stepSizeOf 1000) 3000 0 = some ps ∧
      ps.length = (3000 + stepSizeOf 1000 - 1) / stepSizeOf 1000) ∧
    (3000 + stepSizeOf 1000 - 1) / stepSizeOf 1000 = 5 :=
  ⟨C2_step_count 1000 3000 (by decide), by decide⟩

/-- C3 counterexample: `scrollHeight = 800 ≤ viewportHeight = 1000`, yet the
session takes two screenshots (at positions 0 and 700), not one: one step
happens only when `scrollHeight ≤ stepSize = 700`. -/
theorem C3_counterexample :
    800 ≤ 1000 ∧ captureLoop 3 (stepSizeOf 1000) 800 0 = some [0, 700] ∧
      [0, 700].length = 2 := by decide

/-- C3 (amended): when `1 ≤ totalExtent ≤ stepSize = floor(viewportHeight *
0.7)` the session collects exactly one screenshot, and the Stitcher performs a
single direct draw of the entire captured bitmap (source offset 0, full image
height), with no overlap trimming. -/
theorem C3_single_step (v H : ℕ) (d : ℚ) (h1 : 1 ≤ H) (h2 : H ≤ stepSizeOf v) :
    captureLoop H (stepSizeOf v) H 0 = some [0] ∧
    stitchOps ([0].map fun p => (p, (v : ℚ) * d)) H v d (stepSizeOf v) =
      [⟨0, (v : ℚ) * d, 0, (v : ℚ) * d⟩] := by
  constructor
  · have hs : 1 ≤ stepSizeOf v := by omega
    have h3 := captureLoop_total (stepSizeOf v) hs H H 0 (by nlinarith)
    rw [h3, posFrom_cons (stepSizeOf v) H 0 hs (by omega),
      posFrom_nil (stepSizeOf v) H (0 + stepSizeOf v) hs (by omega)]
  · simp [stitchOps, stitchOpsAux]

/-- C3 witness: `viewportHeight = 1000`, `totalExtent = 700`, `dpr = 1`. -/
theorem C3_witness :
    captureLoop 700 (stepSizeOf 1000) 700 0 = some [0] ∧
    stitchOps ([0].map fun p => (p, ((1000 : ℕ) : ℚ) * 1)) 700 1000 1 (stepSizeOf 1000) =
      [⟨0, ((1000 : ℕ) : ℚ) * 1, 0, ((1000 : ℕ) : ℚ) * 1⟩] :=
  C3_single_step 1000 700 1 (by decide) (by decide)

/-- C4: the claim is right that the loop must terminate, but the code has no
iteration ceiling: whenever `stepSize = floor(viewportHeight * 0.7) = 0` and
the page has positive `scrollHeight`, the `while (position < scrollHeight)`
loop never advances `position` and runs forever. -/
theorem C4_loop_not_terminating (v H : ℕ) (hv : stepSizeOf v = 0) (hH : 1 ≤ H) :
    loopDiverges (stepSizeOf v) H := by
  rw [hv]
  exact fun fuel => captureLoop_zero_step H 0 hH fuel

/-- C4 witness: `viewportHeight = 1` (so `stepSize = 0`), `scrollHeight = 42`. -/
theorem C4_witness : stepSizeOf 1 = 0 ∧ loopDiverges (stepSizeOf 1) 42 :=
  ⟨rfl, C4_loop_not_terminating 1 42 rfl (by norm_num)⟩

/-- C5 counterexample: with `totalExtent = 3000`, `viewportExtent = 1000`
(`stepSize = 700`), the loop requests scroll offsets `700, 1400, 2100, 2800`;
`2100` (and `2800`) exceed `totalExtent - viewportExtent = 2000` — the caller
does not clamp to `[0, totalExtent - viewportExtent]`. -/
theorem C5_counterexample :
    scrollRequests 6 (stepSizeOf 1000) 3000 0 = some [700, 1400, 2100, 2800] ∧
      3000 - 1000 < 2100 := by decide

/-- C5 (amended): every scroll offset the loop requests is strictly below
`totalExtent` (it is a positive multiple of `stepSize` below `scrollHeight`);
no clamping to `[0, totalExtent - viewportExtent]` is performed — requested
offsets may exceed that bound, and the browser (not the caller) clamps the
actual scroll. -/
theorem C5_requests_below_total (fuel s H p : ℕ) (rs : List ℕ)
    (h : scrollRequests fuel s H p = some rs) : ∀ o ∈ rs, o < H := by
  induction fuel generalizing p rs with
  | zero =>
      by_cases hp : p < H
      · simp [scrollRequests, hp] at h
      · simp [scrollRequests, hp] at h
        subst h
        intro o ho
        simp at ho
  | succ fuel ih =>
      by_cases hp : p < H
      · simp only [scrollRequests, if_pos hp, Option.map_eq_some'] at h
        obtain ⟨rest, h1, h2⟩ := h
        intro o ho
        by_cases hq : p + s < H
        · rw [← h2, if_pos hq] at ho
          rcases List.mem_cons.mp ho with rfl | ho'
          · exact hq
          · exact ih (p + s) rest h1 o ho'
        · rw [← h2, if_neg hq] at ho
          exact ih (p + s) rest h1 o ho
      · simp [scrollRequests, hp] at h
        subst h
        intro o ho
        simp at ho

/-- C5 witness: in the 3000/1000 scenario the requested offset 2800 is below
the page height 3000 (though far above `totalExtent - viewportExtent`). -/
theorem C5_witness : (2800 : ℕ) < 3000 :=
  C5_requests_below_total 6 (stepSizeOf 1000) 3000 0 [700, 1400, 2100, 2800]
    (by decide) 2800 (by decide)

/-- C10: on an empty screenshot list `stitchSimple` performs no draw
operation at all and returns the `viewportWidth * dpr` by `totalHeight * dpr`
canvas holding only the white background fill. -/
theorem C10_empty_stitch (H v w s : ℕ) (d : ℚ) :
    stitchImage [] H v w d s = ⟨(w : ℚ) * d, (H : ℚ) * d, "white", []⟩ := rfl

/-- One attempted external action of a capture session: a script injection
(probe, scroll, restore), a visible-tab capture, stitching, or the download. -/
inductive Ev where
  | probe : Ev
  | scrollTo : ℕ → Ev
  | capture : ℕ → Ev
  | restore : ℕ → Ev
  | stitch : Ev
  | download : Ev
deriving DecidableEq

/-- Which external primitives of a session succeed (`true`) or reject
(`false`), plus the geometry the probe reports.  Per-position oracles model
`chrome.tabs.captureVisibleTab` and the in-loop scroll injections. -/
structure Env where
  scrollHeight : ℕ
  currentScroll : ℕ
  viewportHeight : ℕ
  probeOk : Bool
  scrollTopOk : Bool
  captureOk : ℕ → Bool
  scrollOk : ℕ → Bool
  restoreOk : Bool
  stitchOk : Bool
  downloadOk : Bool

/-- The capture loop's trace (background.js lines 73-103): capture at
`position`; advance; if the new position is still below `scrollHeight`,
request a scroll there; a rejecting primitive throws, ending the loop (and,
through the rethrowing `catch`, the session) at once.  Returns the attempted
actions and whether the loop completed. -/
def runLoop (cap scr : ℕ → Bool) (s H : ℕ) : ℕ → ℕ → List Ev × Bool
  | 0, p => ([], !decide (p < H))
  | fuel + 1, p =>
      if p < H then
        if cap p then
          if p + s < H then
            if scr (p + s) then
              let r := runLoop cap scr s H fuel (p + s)
              (Ev.capture p :: Ev.scrollTo (p + s) :: r.1, r.2)
            else ([Ev.capture p, Ev.scrollTo (p + s)], false)
          else ([Ev.capture p], true)
        else ([Ev.capture p], false)
      else ([], true)

/-- The control flow of `captureFullPageSimple` (background.js lines 10-140):
probe, scroll to top, capture loop, restore the original scroll offset, stitch,
download — in that order, each stage attempted only when every earlier one
succeeded, because the `catch` rethrows every error.  Returns the trace of
attempted actions and the session's overall success. -/
def runSession (env : Env) (fuel : ℕ) : List Ev × Bool :=
  if env.probeOk = false then ([Ev.probe], false)
  else if env.scrollTopOk = false then ([Ev.probe, Ev.scrollTo 0], false)
  else
    let r := runLoop env.captureOk env.scrollOk (stepSizeOf env.viewportHeight)
      env.scrollHeight fuel 0
    let base := Ev.probe :: Ev.scrollTo 0 :: r.1
    if r.2 = false then (base, false)
    else
      let base2 := base ++ [Ev.restore env.currentScroll]
      if env.restoreOk = false then (base2, false)
      else if env.stitchOk = false then (base2 ++ [Ev.stitch], false)
      else if env.downloadOk = false then (base2 ++ [Ev.stitch, Ev.download], false)
      else (base2 ++ [Ev.stitch, Ev.download], true)

/-- A one-step session (`scrollHeight = 7 ≤ stepSize = 7` of a viewport of
10) in which every primitive succeeds except restoring the scroll offset. -/
def envRestoreFail : Env :=
  ⟨7, 450, 10, true, true, fun _ => true, fun _ => true, false, true, true⟩

/-- The same session with the restore succeeding as well. -/
def envAllOk : Env := { envRestoreFail with restoreOk := true }

/-- C6 counterexample: the restore of `currentScroll = 450` is attempted and
rejects; the session then stops (no stitch, no download) and reports failure,
while the identical session with a succeeding restore reports success — a
restoration failure alone flips the session's overall result. -/
theorem C6_counterexample :
    runSession envRestoreFail 3 =
      ([Ev.probe, Ev.scrollTo 0, Ev.capture 0, Ev.restore 450], false) ∧
    runSession envAllOk 3 =
      ([Ev.probe, Ev.scrollTo 0, Ev.capture 0, Ev.restore 450, Ev.stitch, Ev.download],
        true) := by
  constructor <;> rfl

/-- C6 (amended): the restore is executed right after the capture loop and
before stitching and downloading, so it is attempted whenever the loop
completes, whatever the later stages do; but it is not exception-safe in the
other direction — there is no `finally` — so a restoration failure propagates
through the rethrowing `catch` and the session reports failure. -/
theorem C6_restore_behavior (env : Env) (fuel : ℕ)
    (hp : env.probeOk = true) (hs : env.scrollTopOk = true)
    (hl : (runLoop env.captureOk env.scrollOk (stepSizeOf env.viewportHeight)
      env.scrollHeight fuel 0).2 = true) :
    Ev.restore env.currentScroll ∈ (runSession env fuel).1 ∧
    (env.restoreOk = false → (runSession env fuel).2 = false) := by
  unfold runSession
  rw [hp, hs]
  simp only [Bool.true_eq_false, if_false, hl]
  cases hrest : env.restoreOk <;> cases hst : env.stitchOk <;> cases hdl : env.downloadOk <;>
    simp

/-- C6 witness: the amended statement at the concrete failing session. -/
theorem C6_witness :
    Ev.restore envRestoreFail.currentScroll ∈ (runSession envRestoreFail 3).1 ∧
    (envRestoreFail.restoreOk = false → (runSession envRestoreFail 3).2 = false) :=
  C6_restore_behavior envRestoreFail 3 rfl rfl (by decide)

/-- The response sent back by `sendResponse`. -/
structure Response where
  success : Bool
  error : Option String
deriving DecidableEq

/-- The `chrome.runtime.onMessage` listener (background.js lines 1-8): only
messages whose `action` is exactly `"captureScreenshot"` are handled — the
session is run and `{success: true}` or `{success: false, error: message}` is
sent back; any other action falls through the listener with no response at
all. -/
def handleMessage (action : String) (env : Env) (fuel : ℕ) (errMsg : String) :
    Option Response :=
  if action = "captureScreenshot" then
    some ⟨(runSession env fuel).2,
      if (runSession env fuel).2 then none else some errMsg⟩
  else none

/-- C7 counterexample: a message with `action = "captureFullPage"` gets no
response of any shape — the listener has no branch for it. -/
theorem C7_counterexample : handleMessage "captureFullPage" envAllOk 3 "boom" = none := by
  decide

/-- C7 (amended): a `"captureScreenshot"` message always gets a
`{success, error?}` response — success `true` when the session succeeds,
success `false` with the error message when any stage fails — while a
`"captureFullPage"` message gets no response at all. -/
theorem C7_response_shape (env : Env) (fuel : ℕ) (msg : String) :
    handleMessage "captureScreenshot" env fuel msg =
      some ⟨(runSession env fuel).2,
        if (runSession env fuel).2 then none else some msg⟩ ∧
    handleMessage "captureFullPage" env fuel msg = none := by
  constructor
  · rw [handleMessage, if_pos rfl]
  · rw [handleMessage, if_neg (by decide)]

/-- A candidate scroll container as the prober reads it. -/
structure Elem where
  scrollHeight : ℕ
  clientHeight : ℕ
  scrollTop : ℕ
deriving DecidableEq

/-- The page state the probing script can see and touch: the
`document.querySelector` results for the four candidate selectors in priority
order (`none` = no match), the document/body scroll heights, the window
scroll position and viewport, and the global `window.__scrollTarget`. -/
structure Page where
  candidates : List (Option Elem)
  docScrollHeight : ℕ
  bodyScrollHeight : ℕ
  windowScrollY : ℕ
  innerHeight : ℕ
  innerWidth : ℕ
  dpr : ℚ
  scrollTargetMarker : Option Elem
deriving DecidableEq

/-- The selector scan of the prober (background.js lines 24-31): the first
candidate that exists and has `scrollHeight > clientHeight`. -/
def findScrollTarget : List (Option Elem) → Option Elem
  | [] => none
  | none :: rest => findScrollTarget rest
  | some e :: rest =>
      if e.clientHeight < e.scrollHeight then some e else findScrollTarget rest

/-- The geometry the prober returns (background.js lines 39-45). -/
structure Geometry where
  scrollHeight : ℕ
  currentScroll : ℕ
  viewportHeight : ℕ
  viewportWidth : ℕ
  dpr : ℚ
deriving DecidableEq

/-- The Page Prober script (background.js lines 15-46): find the scroll
target, store it in the global `window.__scrollTarget` (line 33), and return
the measured geometry.  The result is the page state after the script ran,
together with the returned geometry. -/
def probe (pg : Page) : Page × Geometry :=
  let scrollTarget := findScrollTarget pg.candidates
  let pg2 := { pg with scrollTargetMarker := scrollTarget }
  let scrollHeight := match scrollTarget with
    | some e => e.scrollHeight
    | none => max pg.docScrollHeight pg.bodyScrollHeight
  let currentScroll := match scrollTarget with
    | some e => e.scrollTop
    | none => pg.windowScrollY
  (pg2, ⟨scrollHeight, currentScroll, pg.innerHeight, pg.innerWidth, pg.dpr⟩)

/-- A page with one qualifying scrollable candidate and no marker set yet. -/
def pageWithPanel : Page := ⟨[some ⟨2, 1, 0⟩], 5, 5, 3, 4, 6, 1, none⟩

/-- C9 counterexample: probing is not free of side effects on page state —
on a page whose global marker is unset, the prober leaves the page changed
(it wrote the found target into `window.__scrollTarget`). -/
theorem C9_counterexample : (probe pageWithPanel).1 ≠ pageWithPanel := by decide

/-- C9 (amended): the prober reads layout and mutates no scroll position —
`windowScrollY` and every candidate element (hence every `scrollTop`) are
unchanged — but it does have one side effect beyond reading layout: it
overwrites the global `window.__scrollTarget` marker with the found target. -/
theorem C9_probe_effect (pg : Page) :
    (probe pg).1.windowScrollY = pg.windowScrollY ∧
    (probe pg).1.candidates = pg.candidates ∧
    (probe pg).1 = { pg with scrollTargetMarker := findScrollTarget pg.candidates } :=
  ⟨rfl, rfl, rfl⟩

/-- CSS-pixel start row of the destination of draw `i ≥ 1` of a session
(`i * stepSize + viewportHeight - stepSize`; scaled by `dpr` it is `destY`,
and it is also where draw `i - 1` ends). -/
def bL (s v i : ℕ) : ℕ := i * s + v - s

/-- The draw operation `stitchSimple` emits for shot index `i ≥ 1` of a
session (position `i * s`, image height `v * d`), with the source height
`v*d - (v-s)*d` simplified to `s*d` and the destination start written via
`bL`. -/
def mkOpAt (s v : ℕ) (d : ℚ) (i : ℕ) : DrawOp :=
  ⟨((v : ℚ) - (s : ℚ)) * d, (s : ℚ) * d, ((bL s v i : ℕ) : ℚ) * d, (s : ℚ) * d⟩

/-- The draw operation `stitchSimple` emits for the first shot of a session
(position 0, the whole bitmap of height `v * d`). -/
def mkOp0 (v : ℕ) (d : ℚ) : DrawOp := ⟨0, (v : ℚ) * d, 0, (v : ℚ) * d⟩

lemma bL_mono (s v : ℕ) {i j : ℕ} (h : i ≤ j) : bL s v i ≤ bL s v j := by
  unfold bL
  have := Nat.mul_le_mul_right s h
  omega

lemma bL_succ (s v i : ℕ) (hi : 1 ≤ i) : bL s v (i + 1) = bL s v i + s := by
  unfold bL
  have h1 : 1 * s ≤ i * s := Nat.mul_le_mul_right s hi
  have h2 : (i + 1) * s = i * s + s := by ring
  omega

lemma bL_one (s v : ℕ) : bL s v 1 = v := by unfold bL; omega

lemma cast_bL (s v i : ℕ) (hi : 1 ≤ i) :
    ((bL s v i : ℕ) : ℚ) = (i : ℚ) * (s : ℚ) + (v : ℚ) - (s : ℚ) := by
  have h1 : s ≤ i * s + v := by
    have := Nat.mul_le_mul_right s hi
    omega
  rw [bL, Nat.cast_sub h1]
  push_cast
  ring

lemma bL_cast_le (s v : ℕ) (d : ℚ) (hd : 0 < d) {i j : ℕ} (h : i ≤ j) :
    ((bL s v i : ℕ) : ℚ) * d ≤ ((bL s v j : ℕ) : ℚ) * d :=
  mul_le_mul_of_nonneg_right (by exact_mod_cast bL_mono s v h) hd.le

lemma stitchOpsAux_cons_zero (v : ℕ) (d : ℚ) (s : ℕ) (cH : ℚ) (p : ℕ) (imgH : ℚ)
    (rest : List (ℕ × ℚ)) :
    stitchOpsAux v d s cH 0 ((p, imgH) :: rest) =
      ⟨0, imgH, (p : ℚ) * d, imgH⟩ :: stitchOpsAux v d s cH 1 rest := by
  simp [stitchOpsAux]

lemma stitchOpsAux_cons_ne (v : ℕ) (d : ℚ) (s : ℕ) (cH : ℚ) (i p : ℕ) (imgH : ℚ)
    (rest : List (ℕ × ℚ)) (hi : i ≠ 0) :
    stitchOpsAux v d s cH i ((p, imgH) :: rest) =
      if imgH - ((v : ℚ) - (s : ℚ)) * d > 0 ∧
          (p : ℚ) * d + ((v : ℚ) - (s : ℚ)) * d < cH then
        ⟨((v : ℚ) - (s : ℚ)) * d, imgH - ((v : ℚ) - (s : ℚ)) * d,
            (p : ℚ) * d + ((v : ℚ) - (s : ℚ)) * d, imgH - ((v : ℚ) - (s : ℚ)) * d⟩ ::
          stitchOpsAux v d s cH (i + 1) rest
      else stitchOpsAux v d s cH (i + 1) rest := by
  simp [stitchOpsAux, hi]

/-- Membership in the tail of the session's draw-operation list: the draws at
shot indices `j, j + 1, …, j + cnt - 1` (all `≥ 1`), each present exactly when
its destination start lies above the canvas bottom. -/
lemma mem_stitchOpsAux_tail (s v H : ℕ) (d : ℚ) (hs : 1 ≤ s) (hd : 0 < d) :
    ∀ cnt j, 1 ≤ j → ∀ op : DrawOp,
      (op ∈ stitchOpsAux v d s ((H : ℚ) * d) j
          ((List.range' j cnt).map fun i => (i * s, (v : ℚ) * d)) ↔
        ∃ i, j ≤ i ∧ i < j + cnt ∧ ((bL s v i : ℕ) : ℚ) * d < (H : ℚ) * d ∧
          op = mkOpAt s v d i) := by
  intro cnt
  induction cnt with
  | zero =>
      intro j hj op
      constructor
      · intro h
        simp [stitchOpsAux] at h
      · rintro ⟨i, h1, h2, -, -⟩
        omega
  | succ cnt ih =>
      intro j hj op
      rw [List.range'_succ, List.map_cons, stitchOpsAux_cons_ne v d s _ j _ _ _ (by omega)]
      have hsq : (1 : ℚ) ≤ (s : ℚ) := by exact_mod_cast hs
      have hpos : (v : ℚ) * d - ((v : ℚ) - (s : ℚ)) * d > 0 := by
        have : (v : ℚ) * d - ((v : ℚ) - (s : ℚ)) * d = (s : ℚ) * d := by ring
        rw [this]
        positivity
      have hdest : ((j * s : ℕ) : ℚ) * d + ((v : ℚ) - (s : ℚ)) * d =
          ((bL s v j : ℕ) : ℚ) * d := by
        rw [cast_bL s v j hj]
        push_cast
        ring
      by_cases hcnd : ((bL s v j : ℕ) : ℚ) * d < (H : ℚ) * d
      · rw [if_pos ⟨hpos, by rw [hdest]; exact hcnd⟩, List.mem_cons,
          ih (j + 1) (by omega) op]
        have hop : (⟨((v : ℚ) - (s : ℚ)) * d, (v : ℚ) * d - ((v : ℚ) - (s : ℚ)) * d,
            ((j * s : ℕ) : ℚ) * d + ((v : ℚ) - (s : ℚ)) * d,
            (v : ℚ) * d - ((v : ℚ) - (s : ℚ)) * d⟩ : DrawOp) = mkOpAt s v d j := by
          have e1 : (v : ℚ) * d - ((v : ℚ) - (s : ℚ)) * d = (s : ℚ) * d := by ring
          rw [mkOpAt, e1, hdest]
        rw [hop]
        constructor
        · rintro (rfl | ⟨i, h1, h2, h3, h4⟩)
          · exact ⟨j, le_refl j, by omega, hcnd, rfl⟩
          · exact ⟨i, by omega, by omega, h3, h4⟩
        · rintro ⟨i, h1, h2, h3, h4⟩
          rcases eq_or_lt_of_le h1 with rfl | hlt
          · exact Or.inl h4
          · exact Or.inr ⟨i, by omega, by omega, h3, h4⟩
      · rw [if_neg (fun hc => hcnd (hdest ▸ hc.2)), ih (j + 1) (by omega) op]
        constructor
        · rintro ⟨i, h1, h2, h3, h4⟩
          exact ⟨i, by omega, by omega, h3, h4⟩
        · rintro ⟨i, h1, h2, h3, h4⟩
          rcases eq_or_lt_of_le h1 with rfl | hlt
          · exact absurd h3 hcnd
          · exact ⟨i, by omega, by omega, h3, h4⟩

/-- The draw operations of a session with `n` captured positions
`0, s, 2s, …`: the full first draw (when `n > 0`), and the trimmed draw of
every later shot whose destination start is above the canvas bottom. -/
lemma mem_stitchOps_session (s v H n : ℕ) (d : ℚ) (hs : 1 ≤ s) (hd : 0 < d)
    (op : DrawOp) :
    op ∈ stitchOps ((List.range n).map fun i => (i * s, (v : ℚ) * d)) H v d s ↔
      (0 < n ∧ op = mkOp0 v d) ∨
        ∃ i, 1 ≤ i ∧ i < n ∧ ((bL s v i : ℕ) : ℚ) * d < (H : ℚ) * d ∧
          op = mkOpAt s v d i := by
  cases n with
  | zero =>
      constructor
      · intro h
        simp [stitchOps, stitchOpsAux] at h
      · rintro (⟨h, -⟩ | ⟨i, h1, h2, -, -⟩) <;> omega
  | succ m =>
      rw [List.range_eq_range' (m + 1), List.range'_succ, List.map_cons, stitchOps,
        stitchOpsAux_cons_zero, List.mem_cons, Nat.zero_add,
        mem_stitchOpsAux_tail s v H d hs hd m 1 (le_refl 1) op]
      have h0 : (⟨0, (v : ℚ) * d, ((0 * s : ℕ) : ℚ) * d, (v : ℚ) * d⟩ : DrawOp) =
          mkOp0 v d := by
        simp [mkOp0]
      rw [h0]
      constructor
      · rintro (rfl | ⟨i, h1, h2, h3, h4⟩)
        · exact Or.inl ⟨Nat.succ_pos m, rfl⟩
        · exact Or.inr ⟨i, h1, by omega, h3, h4⟩
      · rintro (⟨-, rfl⟩ | ⟨i, h1, h2, h3, h4⟩)
        · exact Or.inl rfl
        · exact Or.inr ⟨i, h1, by omega, h3, h4⟩

lemma opWrites_mkOp0 (v : ℕ) (d : ℚ) (y : ℚ) :
    opWrites (mkOp0 v d) y ↔ 0 ≤ y ∧ y < (v : ℚ) * d := by
  simp [opWrites, mkOp0]

lemma opWrites_mkOpAt (s v : ℕ) (d : ℚ) (i : ℕ) (hi : 1 ≤ i) (y : ℚ) :
    opWrites (mkOpAt s v d i) y ↔
      ((bL s v i : ℕ) : ℚ) * d ≤ y ∧ y < ((bL s v (i + 1) : ℕ) : ℚ) * d := by
  have hend : ((bL s v (i + 1) : ℕ) : ℚ) * d = ((bL s v i : ℕ) : ℚ) * d + (s : ℚ) * d := by
    rw [bL_succ s v i hi]
    push_cast
    ring
  rw [opWrites, mkOpAt, hend]

/-- No canvas row is written by two different draw operations of a session:
the destination intervals are pairwise disjoint. -/
lemma stitch_writes_unique (s v H n : ℕ) (d : ℚ) (hs : 1 ≤ s) (hd : 0 < d)
    {op1 op2 : DrawOp} {y : ℚ}
    (h1 : op1 ∈ stitchOps ((List.range n).map fun i => (i * s, (v : ℚ) * d)) H v d s)
    (h2 : op2 ∈ stitchOps ((List.range n).map fun i => (i * s, (v : ℚ) * d)) H v d s)
    (w1 : opWrites op1 y) (w2 : opWrites op2 y) : op1 = op2 := by
  rw [mem_stitchOps_session s v H n d hs hd] at h1 h2
  have key : ∀ i, 1 ≤ i → opWrites (mkOp0 v d) y → opWrites (mkOpAt s v d i) y → False := by
    intro i hi hw0 hwi
    rw [opWrites_mkOp0] at hw0
    rw [opWrites_mkOpAt s v d i hi] at hwi
    have h1v : ((bL s v 1 : ℕ) : ℚ) * d ≤ ((bL s v i : ℕ) : ℚ) * d := bL_cast_le s v d hd hi
    rw [bL_one s v] at h1v
    linarith [hw0.2, hwi.1]
  have keyAt : ∀ i j, 1 ≤ i → i < j →
      opWrites (mkOpAt s v d i) y → opWrites (mkOpAt s v d j) y → False := by
    intro i j hi hij hwi hwj
    rw [opWrites_mkOpAt s v d i hi] at hwi
    rw [opWrites_mkOpAt s v d j (by omega)] at hwj
    have hle : ((bL s v (i + 1) : ℕ) : ℚ) * d ≤ ((bL s v j : ℕ) : ℚ) * d :=
      bL_cast_le s v d hd (by omega)
    linarith [hwi.2, hwj.1]
  rcases h1 with ⟨-, rfl⟩ | ⟨i, hi1, -, -, rfl⟩ <;>
    rcases h2 with ⟨-, rfl⟩ | ⟨j, hj1, -, -, rfl⟩
  · rfl
  · exact (key j hj1 w1 w2).elim
  · exact (key i hi1 w2 w1).elim
  · rcases lt_trichotomy i j with hlt | rfl | hgt
    · exact (keyAt i j hi1 hlt w1 w2).elim
    · rfl
    · exact (keyAt j i hj1 hgt w2 w1).elim

lemma ceil_pos (s H : ℕ) (hs : 1 ≤ s) (hH : 1 ≤ H) : 1 ≤ (H + s - 1) / s :=
  (Nat.le_div_iff_mul_le (by omega)).mpr (by omega)

lemma ceil_mul_ge (s H : ℕ) (hs : 1 ≤ s) : H ≤ ((H + s - 1) / s) * s := by
  cases H with
  | zero => simp
  | succ h =>
      have h1 : h + 1 + s - 1 = h + s := by omega
      rw [h1, Nat.add_div_right h (by omega)]
      have h2 := Nat.div_add_mod h s
      have h3 := Nat.mod_lt h (show 0 < s by omega)
      have h4 : (h / s + 1) * s = h / s * s + s := by ring
      have h5 : s * (h / s) = h / s * s := Nat.mul_comm s (h / s)
      omega

lemma bL_ceil_ge (s v H : ℕ) (hs : 1 ≤ s) (hsv : s ≤ v) :
    H ≤ bL s v ((H + s - 1) / s) := by
  have h1 := ceil_mul_ge s H hs
  unfold bL
  omega

/-- The destination start of session draw `i` lies at or below row `y`. -/
abbrev covP (s v : ℕ) (d y : ℚ) (i : ℕ) : Prop := ((bL s v i : ℕ) : ℚ) * d ≤ y

/-- Every canvas row of `[0, totalHeight * dpr)` is written by some draw
operation of the session. -/
lemma stitch_covers (s v H : ℕ) (d : ℚ) (hs : 1 ≤ s) (hsv : s ≤ v) (hd : 0 < d)
    (hH : 1 ≤ H) (y : ℚ) (hy0 : 0 ≤ y) (hyH : y < (H : ℚ) * d) :
    ∃ op ∈ stitchOps ((List.range ((H + s - 1) / s)).map fun i => (i * s, (v : ℚ) * d))
      H v d s, opWrites op y := by
  have hn1 : 1 ≤ (H + s - 1) / s := ceil_pos s H hs hH
  by_cases hyv : y < (v : ℚ) * d
  · refine ⟨mkOp0 v d, ?_, ?_⟩
    · rw [mem_stitchOps_session s v H _ d hs hd]
      exact Or.inl ⟨by omega, rfl⟩
    · rw [opWrites_mkOp0]
      exact ⟨hy0, hyv⟩
  · push_neg at hyv
    have hP1 : covP s v d y 1 := by
      show ((bL s v 1 : ℕ) : ℚ) * d ≤ y
      rw [bL_one s v]
      exact hyv
    have hPn : ¬ covP s v d y ((H + s - 1) / s) := by
      intro hpn
      have hpn' : ((bL s v ((H + s - 1) / s) : ℕ) : ℚ) * d ≤ y := hpn
      have hbn : H ≤ bL s v ((H + s - 1) / s) := bL_ceil_ge s v H hs hsv
      have hcast : (H : ℚ) * d ≤ ((bL s v ((H + s - 1) / s) : ℕ) : ℚ) * d :=
        mul_le_mul_of_nonneg_right (by exact_mod_cast hbn) hd.le
      linarith
    have hfg_lt : Nat.findGreatest (covP s v d y) ((H + s - 1) / s) < (H + s - 1) / s :=
      lt_of_le_of_ne (Nat.findGreatest_le _)
        (fun h => hPn (h ▸ Nat.findGreatest_spec hn1 hP1))
    have hfg_not : ¬ covP s v d y (Nat.findGreatest (covP s v d y) ((H + s - 1) / s) + 1) :=
      Nat.findGreatest_is_greatest (Nat.lt_succ_self _) (by omega)
    refine ⟨mkOpAt s v d (Nat.findGreatest (covP s v d y) ((H + s - 1) / s)), ?_, ?_⟩
    · rw [mem_stitchOps_session s v H _ d hs hd]
      exact Or.inr ⟨_, Nat.le_findGreatest hn1 hP1, hfg_lt,
        lt_of_le_of_lt (Nat.findGreatest_spec hn1 hP1) hyH, rfl⟩
    · rw [opWrites_mkOpAt s v d _ (Nat.le_findGreatest hn1 hP1)]
      exact ⟨Nat.findGreatest_spec hn1 hP1, lt_of_not_le hfg_not⟩

/-- The session's shot list `(p, imgH)` over the closed-form positions, as a
map over `List.range`. -/
lemma session_shots (s H : ℕ) (q : ℚ) :
    (posFrom s H 0).map (fun p => ((p : ℕ), q)) =
      (List.range ((H + s - 1) / s)).map fun i => (i * s, q) := by
  unfold posFrom
  rw [List.map_map]
  simp only [Nat.sub_zero]
  apply List.map_congr_left
  intro i _
  simp [Function.comp]

/-- C1: for a session with `stepSize < viewportExtent`, the destination row
ranges drawn by `stitchSimple` — the first step's full bitmap at
`position_0 * dpr`, and for every later step the range of height
`img.height - overlapPx` starting at `position_i * dpr + overlapPx`, with
`overlapPx = (viewportExtent - stepSize) * dpr`, clipped to the canvas —
exactly partition `[0, totalExtent * dpr)`: every output canvas row is
written by exactly one draw, with no overlap and no gap.  (Screenshots carry
the captured bitmap height `viewportExtent * dpr`.) -/
theorem C1_stitch_exact_partition (s v H fuel : ℕ) (d : ℚ) (ps : List ℕ)
    (hsv : s < v) (hd : 0 < d) (hloop : captureLoop fuel s H 0 = some ps)
    (y : ℚ) (hy0 : 0 ≤ y) (hyH : y < (H : ℚ) * d) :
    ∃! op : DrawOp,
      op ∈ stitchOps (ps.map fun p => (p, (v : ℚ) * d)) H v d s ∧ opWrites op y := by
  have hH : 1 ≤ H := by
    by_contra hc
    have h0 : H = 0 := by omega
    subst h0
    have hneg : y < 0 := by simpa using hyH
    linarith
  have hs : 1 ≤ s := by
    by_contra hc
    have h0 : s = 0 := by omega
    subst h0
    rw [captureLoop_zero_step H 0 hH fuel] at hloop
    exact Option.noConfusion hloop
  have hps : ps = posFrom s H 0 := captureLoop_some s hs fuel H 0 ps hloop
  rw [hps, session_shots s H ((v : ℚ) * d)]
  obtain ⟨op, hmem, hw⟩ :=
    stitch_covers s v H d hs (le_of_lt hsv) hd hH y hy0 hyH
  refine ⟨op, ⟨hmem, hw⟩, ?_⟩
  rintro op' ⟨hmem', hw'⟩
  exact stitch_writes_unique s v H _ d hs hd hmem' hmem hw' hw

/-- C1 witness: the spec's 3000/1000/700 scenario with `dpr = 2`; canvas row
4321 is written by exactly one draw. -/
theorem C1_witness :
    ∃! op : DrawOp,
      op ∈ stitchOps ([0, 700, 1400, 2100, 2800].map fun p => (p, ((1000 : ℕ) : ℚ) * 2))
        3000 1000 2 700 ∧ opWrites op 4321 :=
  C1_stitch_exact_partition 700 1000 3000 6 2 [0, 700, 1400, 2100, 2800]
    (by norm_num) (by norm_num) (by decide) 4321 (by norm_num) (by norm_num)

/-- C8: with `devicePixelRatio = 5/2`, every destination coordinate computed
by `stitchSimple` for a session is an integer CSS-pixel row scaled by exactly
`5/2` (the code applies no rounding at all — one consistent rule), and no
canvas row is assigned by two different draws: their destination intervals
are pairwise disjoint, so there is no double assignment from rounding drift
across steps. -/
theorem C8_fractional_dpr (s v H fuel : ℕ) (ps : List ℕ) (hsv : s < v)
    (hloop : captureLoop fuel s H 0 = some ps) :
    (∀ op ∈ stitchOps (ps.map fun p => (p, (v : ℚ) * (5 / 2))) H v (5 / 2) s,
      ∃ k : ℕ, op.destY = (k : ℚ) * (5 / 2)) ∧
    (∀ (y : ℚ) (op1 op2 : DrawOp),
      op1 ∈ stitchOps (ps.map fun p => (p, (v : ℚ) * (5 / 2))) H v (5 / 2) s →
      op2 ∈ stitchOps (ps.map fun p => (p, (v : ℚ) * (5 / 2))) H v (5 / 2) s →
      opWrites op1 y → opWrites op2 y → op1 = op2) := by
  by_cases hH : 1 ≤ H
  · have hs : 1 ≤ s := by
      by_contra hc
      have h0 : s = 0 := by omega
      subst h0
      rw [captureLoop_zero_step H 0 hH fuel] at hloop
      exact Option.noConfusion hloop
    have hd : (0 : ℚ) < 5 / 2 := by norm_num
    have hps : ps = posFrom s H 0 := captureLoop_some s hs fuel H 0 ps hloop
    rw [hps, session_shots s H ((v : ℚ) * (5 / 2))]
    constructor
    · intro op hop
      rw [mem_stitchOps_session s v H _ (5 / 2) hs hd] at hop
      rcases hop with ⟨-, rfl⟩ | ⟨i, hi1, -, -, rfl⟩
      · exact ⟨0, by simp [mkOp0]⟩
      · exact ⟨bL s v i, rfl⟩
    · intro y op1 op2 h1 h2 w1 w2
      exact stitch_writes_unique s v H _ (5 / 2) hs hd h1 h2 w1 w2
  · have h0 : H = 0 := by omega
    subst h0
    have hdone := captureLoop_done fuel s 0 0 (by omega)
    rw [hdone] at hloop
    have hps : ps = [] := (Option.some.inj hloop).symm
    subst hps
    constructor
    · intro op hop
      simp [stitchOps, stitchOpsAux] at hop
    · intro y op1 op2 h1 h2 w1 w2
      simp [stitchOps, stitchOpsAux] at h1

/-- C8 witness: the 3000/1000/700 session at `dpr = 5/2`. -/
theorem C8_witness :
    (∀ op ∈ stitchOps
        ([0, 700, 1400, 2100, 2800].map fun p => (p, ((1000 : ℕ) : ℚ) * (5 / 2)))
        3000 1000 (5 / 2) 700,
      ∃ k : ℕ, op.destY = (k : ℚ) * (5 / 2)) ∧
    (∀ (y : ℚ) (op1 op2 : DrawOp),
      op1 ∈ stitchOps
        ([0, 700, 1400, 2100, 2800].map fun p => (p, ((1000 : ℕ) : ℚ) * (5 / 2)))
        3000 1000 (5 / 2) 700 →
      op2 ∈ stitchOps
        ([0, 700, 1400, 2100, 2800].map fun p => (p, ((1000 : ℕ) : ℚ) * (5 / 2)))
        3000 1000 (5 / 2) 700 →
      opWrites op1 y → opWrites op2 y → op1 = op2) :=
  C8_fractional_dpr 700 1000 3000 6 [0, 700, 1400, 2100, 2800] (by norm_num) (by decide)
